import Mathlib

/-!
# Model of the Asyncy HTTP gateway (`app/handlers/Exec.py`)

A shallow embedding of `ExecHandler`: the envelope construction of
`resolve_by_uri`, the byte-stream line decoder of `_callback`, and the
command dispatch loop of `_callback`.  Bytes are `Nat` (values `< 256`),
JSON values are the inductive `JVal`, and response mutations are recorded
as a trace of `Effect`s.
-/

set_option maxRecDepth 4000

/-- Parsed JSON values, as produced by `ujson.loads`.  Numbers are modelled
as integers (the commands under study only use integral numbers). -/
inductive JVal where
  | null
  | bool (b : Bool)
  | num (n : Int)
  | str (s : String)
  | arr (xs : List JVal)
  | obj (fields : List (String × JVal))

/-- Python truthiness (`bool(v)`) of a JSON-decoded value. -/
def truthy : JVal → Bool
  | .null => false
  | .bool b => b
  | .num n => !(n = 0 : Bool)
  | .str s => !(s = "" : Bool)
  | .arr xs => !xs.isEmpty
  | .obj fs => !fs.isEmpty

/-! ## UTF-8 decoding (`bytes.decode('utf-8')`)

A strict UTF-8 decoder: rejects continuation errors, overlong encodings,
surrogates and code points above `U+10FFFF`, exactly as Python's strict
`utf-8` codec does.  Returns `none` where Python raises
`UnicodeDecodeError`. -/

/-- Is `b` a UTF-8 continuation byte (`0x80`–`0xBF`)? -/
def contByte (b : Nat) : Bool := 0x80 ≤ b && b < 0xC0

/-- Fueled decoding loop; the fuel is the length of the input, which is
enough because every step consumes at least one byte. -/
def utf8DecodeAux : Nat → List Nat → Option (List Char)
  | _, [] => some []
  | 0, _ :: _ => none
  | fuel + 1, b :: rest =>
    if b < 0x80 then
      (utf8DecodeAux fuel rest).map (fun cs => Char.ofNat b :: cs)
    else if b < 0xC2 then none
    else if b < 0xE0 then
      match rest with
      | b1 :: rest2 =>
        if contByte b1 then
          (utf8DecodeAux fuel rest2).map
            (fun cs => Char.ofNat ((b - 0xC0) * 0x40 + (b1 - 0x80)) :: cs)
        else none
      | [] => none
    else if b < 0xF0 then
      match rest with
      | b1 :: b2 :: rest2 =>
        if (if b = 0xE0 then (0xA0 ≤ b1 && b1 < 0xC0 : Bool)
            else if b = 0xED then (0x80 ≤ b1 && b1 < 0xA0 : Bool)
            else contByte b1) && contByte b2 then
          (utf8DecodeAux fuel rest2).map
            (fun cs =>
              Char.ofNat ((b - 0xE0) * 0x1000 + (b1 - 0x80) * 0x40 + (b2 - 0x80)) :: cs)
        else none
      | _ => none
    else if b < 0xF5 then
      match rest with
      | b1 :: b2 :: b3 :: rest2 =>
        if (if b = 0xF0 then (0x90 ≤ b1 && b1 < 0xC0 : Bool)
            else if b = 0xF4 then (0x80 ≤ b1 && b1 < 0x90 : Bool)
            else contByte b1) && contByte b2 && contByte b3 then
          (utf8DecodeAux fuel rest2).map
            (fun cs =>
              Char.ofNat ((b - 0xF0) * 0x40000 + (b1 - 0x80) * 0x1000 +
                (b2 - 0x80) * 0x40 + (b3 - 0x80)) :: cs)
        else none
      | _ => none
    else none

/-- `bs.decode('utf-8')`: `some` of the decoded text, `none` where Python
raises `UnicodeDecodeError`. -/
def utf8Decode (bs : List Nat) : Option String :=
  (utf8DecodeAux bs.length bs).map (fun cs => String.mk cs)

/-! ## The stream decoder: the byte loop of `ExecHandler._callback`

The loop reads the chunk byte by byte; at each `0x0A` it decodes the
accumulated buffer as UTF-8 and emits the result as one instruction line,
then clears the buffer; every other byte is appended to the buffer.  A
`UnicodeDecodeError` aborts the stream (the exception propagates out of
the callback and the fetch is torn down), leaving the buffer uncleared. -/

/-- Decoder state: the framing buffer, the lines emitted so far (in
order), and whether a decode error has aborted the stream. -/
structure DecSt where
  buffer : List Nat
  emitted : List String
  errored : Bool
deriving Repr, DecidableEq

/-- One iteration of the byte loop of `_callback`. -/
def feedByte (s : DecSt) (b : Nat) : DecSt :=
  if s.errored then s
  else if b = 10 then
    match utf8Decode s.buffer with
    | some line => ⟨[], s.emitted ++ [line], false⟩
    | none => ⟨s.buffer, s.emitted, true⟩
  else ⟨s.buffer ++ [b], s.emitted, false⟩

/-- Feeding one chunk to the byte loop. -/
def feedChunk (s : DecSt) (chunk : List Nat) : DecSt :=
  chunk.foldl feedByte s

/-- Feeding a whole stream of chunks, in arrival order, starting from the
fresh (empty-buffer) state. -/
def feedStream (chunks : List (List Nat)) : DecSt :=
  chunks.foldl feedChunk ⟨[], [], false⟩

/-! Specification-side description of the emitted lines, following the
claim's words: each emitted line is exactly the bytes up to, but not
including, a `0x0A` byte, decoded as UTF-8; an unterminated trailing
segment is never emitted; emission stops at the first undecodable line. -/

/-- Split a byte sequence at every `0x0A`; the last element is the
(possibly empty) unterminated trailing segment. -/
def splitLinesAt10 : List Nat → List (List Nat)
  | [] => [[]]
  | b :: rest =>
    if b = 10 then [] :: splitLinesAt10 rest
    else (splitLinesAt10 rest).modifyHead (fun l => b :: l)

/-- UTF-8-decode segments in order, stopping at the first invalid one. -/
def takeDecoded : List (List Nat) → List String
  | [] => []
  | l :: ls =>
    match utf8Decode l with
    | some s => s :: takeDecoded ls
    | none => []

/-- The lines a byte sequence should produce: every `0x0A`-terminated
segment, decoded as UTF-8, up to the first undecodable one. -/
def decodedLines (bs : List Nat) : List String :=
  takeDecoded (splitLinesAt10 bs).dropLast

/-! ## The shared class-level buffer (`ExecHandler.buffer`)

In the source, `buffer = bytearray()` is a class attribute: every handler
instance mutates the same bytearray.  This models several concurrent
streams feeding chunks through `_callback`'s byte loop against that single
shared buffer; emissions are tagged with the feeding handler's identity. -/

/-- State of the class-level buffer together with all emissions, each
tagged with the id of the handler instance that emitted it. -/
structure SharedSt where
  buffer : List Nat
  emitted : List (Nat × String)
  errored : Bool
deriving Repr, DecidableEq

/-- One byte processed by handler `hid` against the shared class buffer. -/
def sharedFeedByte (hid : Nat) (s : SharedSt) (b : Nat) : SharedSt :=
  if s.errored then s
  else if b = 10 then
    match utf8Decode s.buffer with
    | some line => ⟨[], s.emitted ++ [(hid, line)], false⟩
    | none => ⟨s.buffer, s.emitted, true⟩
  else ⟨s.buffer ++ [b], s.emitted, false⟩

/-- Run a sequence of `(handler id, chunk)` deliveries against the single
class-level buffer, as the source's class attribute makes happen. -/
def sharedRun (ops : List (Nat × List Nat)) : SharedSt :=
  ops.foldl (fun s op => op.2.foldl (sharedFeedByte op.1) s) ⟨[], [], false⟩

/-! ## Dictionary operations on parsed JSON objects

`ujson.loads` yields Python dicts; keys are unique.  `dlookup` is `d[k]` /
`d.get(k)`, `derase` is the removal performed by `d.pop(k, default)`. -/

/-- `d.get(k)`: the value stored under key `k`, if any. -/
def dlookup (k : String) : List (String × JVal) → Option JVal
  | [] => none
  | (k2, v) :: rest => if k2 = k then some v else dlookup k rest

/-- Remove key `k` from the object (the mutation done by `d.pop(k, ...)`). -/
def derase (k : String) (d : List (String × JVal)) : List (String × JVal) :=
  d.filter (fun p => !(p.1 = k : Bool))

/-- Truthiness of an optional value, with Python's `None`/missing-key
default counting as false (`d.get(k)` followed by an `if`). -/
def truthyOpt : Option JVal → Bool
  | none => false
  | some v => truthy v

/-! ## Python stringification and `urllib.parse.urlencode`

`urlencode(params)` renders each key and value with `str(...)` and then
percent-encodes it with `quote_plus`. -/

/-- The apostrophe character, used by Python `repr` of strings. -/
def pyQuote : String := String.singleton (Char.ofNat 39)

mutual

/-- Python `str(v)` of a JSON-decoded value. -/
def pyStr : JVal → String
  | .null => "None"
  | .bool true => "True"
  | .bool false => "False"
  | .num n => toString n
  | .str s => s
  | .arr xs => "[" ++ pyStrElems xs ++ "]"
  | .obj fs => "\x7b" ++ pyStrFields fs ++ "\x7d"

/-- Python `repr(v)` as used for elements inside containers. -/
def pyReprV : JVal → String
  | .str s => pyQuote ++ s ++ pyQuote
  | .null => "None"
  | .bool true => "True"
  | .bool false => "False"
  | .num n => toString n
  | .arr xs => "[" ++ pyStrElems xs ++ "]"
  | .obj fs => "\x7b" ++ pyStrFields fs ++ "\x7d"

/-- Comma-separated `repr`s of list elements. -/
def pyStrElems : List JVal → String
  | [] => ""
  | [v] => pyReprV v
  | v :: rest => pyReprV v ++ ", " ++ pyStrElems rest

/-- Comma-separated `'key': repr(value)` renderings of dict items. -/
def pyStrFields : List (String × JVal) → String
  | [] => ""
  | [(k, v)] => pyQuote ++ k ++ pyQuote ++ ": " ++ pyReprV v
  | (k, v) :: rest => pyQuote ++ k ++ pyQuote ++ ": " ++ pyReprV v ++ ", " ++ pyStrFields rest

end

/-- UTF-8 encoding of one character (scalar values only, which is all
`Char` holds). -/
def utf8EncodeChar (c : Char) : List Nat :=
  let n := c.toNat
  if n < 0x80 then [n]
  else if n < 0x800 then [0xC0 + n / 0x40, 0x80 + n % 0x40]
  else if n < 0x10000 then
    [0xE0 + n / 0x1000, 0x80 + (n / 0x40) % 0x40, 0x80 + n % 0x40]
  else
    [0xF0 + n / 0x40000, 0x80 + (n / 0x1000) % 0x40, 0x80 + (n / 0x40) % 0x40,
      0x80 + n % 0x40]

/-- `s.encode('utf-8')`. -/
def utf8Encode (cs : List Char) : List Nat :=
  (cs.map utf8EncodeChar).flatten

/-- Is byte `b` in `urllib`'s always-safe set (letters, digits, `_.-~`)? -/
def alwaysSafeByte (b : Nat) : Bool :=
  (0x41 ≤ b && b ≤ 0x5A) || (0x61 ≤ b && b ≤ 0x7A) || (0x30 ≤ b && b ≤ 0x39) ||
    b = 0x5F || b = 0x2E || b = 0x2D || b = 0x7E

/-- Upper-case hexadecimal digit of `n < 16`. -/
def hexDigit (n : Nat) : Char :=
  if n < 10 then Char.ofNat (48 + n) else Char.ofNat (55 + n)

/-- `urllib.parse.quote_plus`: UTF-8-encode, keep always-safe bytes, map
space to `+`, percent-encode the rest. -/
def quotePlus (s : String) : String :=
  String.mk ((utf8Encode s.data).foldr
    (fun b acc =>
      if b = 0x20 then '+' :: acc
      else if alwaysSafeByte b then Char.ofNat b :: acc
      else '%' :: hexDigit (b / 16) :: hexDigit (b % 16) :: acc) [])

/-- `urllib.parse.urlencode(params)` over a dict (insertion order). -/
def urlencodePy (fs : List (String × JVal)) : String :=
  String.intercalate "&" (fs.map (fun p => quotePlus p.1 ++ "=" ++ quotePlus (pyStr p.2)))

/-- Bool-valued substring test (`needle in hay` on Python strings). -/
def isSubstr (needle hay : List Char) : Bool :=
  (List.range (hay.length + 1)).any (fun i => ((hay.drop i).take needle.length) == needle)

/-! ## Errors and response-sink effects -/

/-- Failures of the handler: `tornado.web.HTTPError(code)`, `IndexError`,
`UnicodeDecodeError`, `ValueError` from `ujson.loads` of the request body,
`TypeError`, `KeyError`, and `NotImplementedError` for unknown commands. -/
inductive GErr where
  | http (code : Nat)
  | indexErr
  | decodeErr
  | malformedBody
  | typeErr
  | keyErr (k : String)
  | notImpl (cmd : String)
deriving Repr, DecidableEq

/-- One observable mutation of the inbound response (the sink). -/
inductive Effect where
  | write (v : JVal)
  | flush
  | setStatus (code : JVal)
  | setCookiePlain (fields : List (String × JVal))
  | setCookieSigned (fields : List (String × JVal))
  | clearCookie (name path domain : JVal)
  | setHeader (key value : JVal)
  | redirect (url : String)

/-- A decoded command message `{command, data}`. -/
structure Ins where
  command : String
  data : List (String × JVal)

/-- Keyword-argument binding for tornado's
`clear_cookie(name, path="/", domain=None)` called as
`self.clear_cookie(**data)`: unknown keys or a missing `name` raise
`TypeError`. -/
def clearCookieCall (d : List (String × JVal)) : Except GErr Effect :=
  if d.any (fun p => !(p.1 = "name" || p.1 = "path" || p.1 = "domain" : Bool)) then
    .error .typeErr
  else
    match dlookup "name" d with
    | none => .error .typeErr
    | some n =>
      .ok (.clearCookie n ((dlookup "path" d).getD (.str "/"))
        ((dlookup "domain" d).getD .null))

/-- Dispatch of one decoded instruction (the `if/elif` chain of
`_callback`): the effects to apply, and whether this was `finish` (the
`break`).  `tornado.web.RequestHandler.write` rejects values that are not
str, bytes or dict with `TypeError`; a non-string redirect URL is likewise
modelled as a `TypeError`. -/
def execIns (i : Ins) : Except GErr (List Effect × Bool) :=
  if i.command = "write" then
    let rest : List Effect :=
      if truthyOpt (dlookup "flush" i.data) then [.flush] else []
    match dlookup "content" i.data with
    | none => .ok (.write (.str "null") :: rest, false)
    | some .null => .ok (.write (.str "null") :: rest, false)
    | some (.str s) => .ok (.write (.str s) :: rest, false)
    | some (.obj fs) => .ok (.write (.obj fs) :: rest, false)
    | some _ => .error .typeErr
  else if i.command = "set_status" then
    match dlookup "code" i.data with
    | none => .error (.keyErr "code")
    | some v => .ok ([.setStatus v], false)
  else if i.command = "set_cookie" then
    if truthyOpt (dlookup "secure" i.data) then
      .ok ([.setCookiePlain (derase "secure" i.data)], false)
    else
      .ok ([.setCookieSigned (derase "secure" i.data)], false)
  else if i.command = "clear_cookie" then
    (clearCookieCall i.data).map (fun e => ([e], false))
  else if i.command = "clear_all_cookie" then
    (clearCookieCall i.data).map (fun e => ([e], false))
  else if i.command = "set_header" then
    match dlookup "key" i.data with
    | none => .error (.keyErr "key")
    | some k =>
      match dlookup "value" i.data with
      | none => .error (.keyErr "value")
      | some v => .ok ([.setHeader k v], false)
  else if i.command = "flush" then .ok ([.flush], false)
  else if i.command = "redirect" then
    match dlookup "url" i.data with
    | none => .error (.keyErr "url")
    | some (.str u) =>
      match dlookup "query" i.data with
      | some (.obj q) =>
        let qs := urlencodePy q
        if u.data.contains '?' then .ok ([.redirect (u ++ "&" ++ qs)], false)
        else .ok ([.redirect (u ++ "?" ++ qs)], false)
      | _ => .ok ([.redirect u], false)
    | some _ => .error .typeErr
  else if i.command = "finish" then .ok ([], true)
  else .error (.notImpl i.command)

/-- The instruction loop of one `_callback` invocation: apply instructions
in order, stopping at `finish` (`break`) or at the first raised error
(already-applied effects remain). -/
def execChunk (s : List Effect) : List Ins → List Effect × Option GErr
  | [] => (s, none)
  | i :: rest =>
    match execIns i with
    | .error e => (s, some e)
    | .ok (effs, true) => (s ++ effs, none)
    | .ok (effs, false) => execChunk (s ++ effs) rest

/-- Successive `_callback` invocations, one per delivered chunk of
instructions.  An uncaught exception tears the fetch down, so processing
stops at the first error; a `finish` merely breaks out of that chunk's
loop and does not stop later deliveries. -/
def execStream (s : List Effect) : List (List Ins) → List Effect × Option GErr
  | [] => (s, none)
  | c :: cs =>
    match execChunk s c with
    | (s2, some e) => (s2, some e)
    | (s2, none) => execStream s2 cs

/-! ## Envelope construction (`resolve_by_uri`) and the outbound call -/

/-- The event envelope built for one inbound request. -/
structure Event where
  eventType : String
  cloudEventsVersion : String
  source : String
  eventID : String
  eventTime : String
  contentType : String
  headers : List (String × String)
  query_params : List (String × String)
  body : Option JVal

/-- The envelope with its constant fields filled in as in the source. -/
def mkEvent (eid etime : String) (hs : List (String × String))
    (qp : List (String × String)) (b : Option JVal) : Event :=
  ⟨"http_request", "0.1", "gateway", eid, etime,
    "application/vnd.omg.object+json", hs, qp, b⟩

/-- ASCII lower-casing of one character. -/
def charLower (c : Char) : Char :=
  if 65 ≤ c.toNat && c.toNat ≤ 90 then Char.ofNat (c.toNat + 32) else c

/-- Case-insensitive header lookup (`tornado.httputil.HTTPHeaders.get`). -/
def headerGet (hs : List (String × String)) (k : String) : Option String :=
  (hs.find? (fun p => p.1.data.map charLower == k.data.map charLower)).map (·.2)

/-- Does the request's content type contain `application/json`
(`'application/json' in self.request.headers.get('content-type', '')`)? -/
def hasJsonCT (hs : List (String × String)) : Bool :=
  isSubstr "application/json".data ((headerGet hs "content-type").getD "").data

/-- The query-parameter loop: for each name the first raw value is
UTF-8-decoded (`v[0].decode('utf-8')`); an empty value list raises
`IndexError`, an undecodable value `UnicodeDecodeError`. -/
def buildQueryParams : List (String × List (List Nat)) → Except GErr (List (String × String))
  | [] => .ok []
  | (_, []) :: _ => .error .indexErr
  | (k, v :: _) :: rest =>
    match utf8Decode v with
    | none => .error .decodeErr
    | some s =>
      match buildQueryParams rest with
      | .error e => .error e
      | .ok qs => .ok ((k, s) :: qs)

/-- `ExecHandler.resolve_by_uri`: route resolution (404 for `GET`, 405
otherwise, when the router finds no handler), then envelope construction
(headers, first-value query parameters, JSON body when the content type
contains `application/json`).  `loads` is the external `ujson.loads`
(returning `none` where it raises `ValueError`, mapped to the spec's
`MalformedBodyError`). -/
def resolve_by_uri (resolve : Option String) (method : String)
    (headers : List (String × String)) (args : List (String × List (List Nat)))
    (body : List Nat) (loads : String → Option JVal)
    (eventID eventTime : String) : Except GErr (String × Event) :=
  match resolve with
  | none => if method = "GET" then .error (.http 404) else .error (.http 405)
  | some ep =>
    match buildQueryParams args with
    | .error e => .error e
    | .ok qp =>
      if hasJsonCT headers then
        match utf8Decode body with
        | none => .error .decodeErr
        | some s =>
          match loads s with
          | none => .error .malformedBody
          | some v => .ok (ep, mkEvent eventID eventTime headers qp (some v))
      else .ok (ep, mkEvent eventID eventTime headers qp none)

/-- The outbound backend call built by `_handle`: a streaming POST with
the serialized envelope as body. -/
structure OutboundReq where
  url : String
  method : String
  contentTypeHeader : String
  connectTimeout : Nat
  requestTimeout : Nat
  event : Event

/-- `_handle` up to the point of contacting the backend: resolve the
route and build the envelope; only on success is an outbound request
constructed. -/
def handleModel (resolve : Option String) (method : String)
    (headers : List (String × String)) (args : List (String × List (List Nat)))
    (body : List Nat) (loads : String → Option JVal)
    (eventID eventTime : String) : Except GErr OutboundReq :=
  match resolve_by_uri resolve method headers args body loads eventID eventTime with
  | .error e => .error e
  | .ok (ep, ev) => .ok ⟨ep, "POST", "application/json; charset=utf-8", 10, 60, ev⟩

/-! # Theorems -/

/-! ## C1: framing independence of the byte loop -/

theorem feedChunk_errored (bs : List Nat) :
    ∀ s : DecSt, s.errored = true → feedChunk s bs = s := by
  induction bs with
  | nil => intro s _; rfl
  | cons b rest ih =>
    intro s h
    have hb : feedByte s b = s := by simp [feedByte, h]
    show feedChunk (feedByte s b) rest = s
    rw [hb]
    exact ih s h

theorem splitLinesAt10_ne_nil (bs : List Nat) : splitLinesAt10 bs ≠ [] := by
  induction bs with
  | nil => simp [splitLinesAt10]
  | cons b rest ih =>
    simp only [splitLinesAt10]
    split
    · simp
    · cases h : splitLinesAt10 rest with
      | nil => exact absurd h ih
      | cons y ys => simp [List.modifyHead]

theorem splitLinesAt10_no10 (buf : List Nat) (h : 10 ∉ buf) :
    splitLinesAt10 buf = [buf] := by
  induction buf with
  | nil => rfl
  | cons b rest ih =>
    simp only [List.mem_cons, not_or] at h
    obtain ⟨h1, h2⟩ := h
    simp only [splitLinesAt10]
    rw [if_neg (Ne.symm h1), ih h2]
    simp [List.modifyHead]

theorem splitLinesAt10_append10 (buf rest : List Nat) (h : 10 ∉ buf) :
    splitLinesAt10 (buf ++ 10 :: rest) = buf :: splitLinesAt10 rest := by
  induction buf with
  | nil => simp [splitLinesAt10]
  | cons b buf2 ih =>
    simp only [List.mem_cons, not_or] at h
    obtain ⟨h1, h2⟩ := h
    simp only [List.cons_append, splitLinesAt10, List.append_eq]
    rw [if_neg (Ne.symm h1), ih h2]
    simp [List.modifyHead]

theorem decodedLines_no10 (buf : List Nat) (h : 10 ∉ buf) : decodedLines buf = [] := by
  unfold decodedLines
  rw [splitLinesAt10_no10 buf h]
  rfl

theorem decodedLines_append10 (buf rest : List Nat) (h : 10 ∉ buf) :
    decodedLines (buf ++ 10 :: rest) =
      (match utf8Decode buf with
       | some line => line :: decodedLines rest
       | none => []) := by
  unfold decodedLines
  rw [splitLinesAt10_append10 buf rest h]
  cases hsp : splitLinesAt10 rest with
  | nil => exact absurd hsp (splitLinesAt10_ne_nil rest)
  | cons y ys =>
    rw [List.dropLast_cons₂]
    cases hdec : utf8Decode buf <;> simp [takeDecoded, hdec]

theorem feedChunk_emitted_eq (bs : List Nat) :
    ∀ (buf : List Nat) (acc : List String), 10 ∉ buf →
      (feedChunk ⟨buf, acc, false⟩ bs).emitted = acc ++ decodedLines (buf ++ bs) := by
  induction bs with
  | nil =>
    intro buf acc h
    show (DecSt.mk buf acc false).emitted = acc ++ decodedLines (buf ++ [])
    rw [List.append_nil, decodedLines_no10 buf h, List.append_nil]
  | cons b rest ih =>
    intro buf acc h
    show (feedChunk (feedByte ⟨buf, acc, false⟩ b) rest).emitted = _
    by_cases hb : b = 10
    · subst hb
      cases hdec : utf8Decode buf with
      | some line =>
        have hfb : feedByte ⟨buf, acc, false⟩ 10 = ⟨[], acc ++ [line], false⟩ := by
          simp [feedByte, hdec]
        rw [hfb, ih [] (acc ++ [line]) (by simp),
          decodedLines_append10 buf rest h, hdec]
        simp
      | none =>
        have hfb : feedByte ⟨buf, acc, false⟩ 10 = ⟨buf, acc, true⟩ := by
          simp [feedByte, hdec]
        rw [hfb, feedChunk_errored rest _ rfl,
          decodedLines_append10 buf rest h, hdec]
        simp
    · have hfb : feedByte ⟨buf, acc, false⟩ b = ⟨buf ++ [b], acc, false⟩ := by
        simp [feedByte, hb]
      have h2 : 10 ∉ buf ++ [b] := by
        intro hc
        rcases List.mem_append.mp hc with h3 | h3
        · exact h h3
        · exact hb (List.mem_singleton.mp h3).symm
      rw [hfb, ih (buf ++ [b]) acc h2, List.append_assoc, List.singleton_append]

theorem feedStream_eq_flatten (chunks : List (List Nat)) :
    ∀ s : DecSt, chunks.foldl feedChunk s = feedChunk s chunks.flatten := by
  induction chunks with
  | nil => intro s; rfl
  | cons c cs ih =>
    intro s
    show cs.foldl feedChunk (feedChunk s c) = feedChunk s ((c :: cs).flatten)
    rw [ih (feedChunk s c)]
    show feedChunk (feedChunk s c) cs.flatten = feedChunk s (c ++ cs.flatten)
    unfold feedChunk
    rw [List.foldl_append]

/-- C1: framing independence of the stream decoder.  Feeding any splitting
of a byte sequence into chunks through the byte loop of `_callback` yields
exactly the state of feeding the whole sequence as one chunk, and the
emitted lines are precisely the `0x0A`-terminated segments of the joined
sequence, each decoded as UTF-8 (up to the first undecodable line, where
the stream aborts) — so no line is emitted twice, fused, or split. -/
theorem stream_decoder_framing_independence (chunks : List (List Nat)) :
    feedStream chunks = feedChunk ⟨[], [], false⟩ chunks.flatten ∧
    (feedStream chunks).emitted = decodedLines chunks.flatten := by
  have h1 : feedStream chunks = feedChunk ⟨[], [], false⟩ chunks.flatten :=
    feedStream_eq_flatten chunks ⟨[], [], false⟩
  refine ⟨h1, ?_⟩
  rw [h1, feedChunk_emitted_eq chunks.flatten [] [] (by simp)]
  simp

/-! ## C2: the `finish` break -/

/-- C2 (amended): the `break` on `finish` is terminal only for the chunk
being processed — every instruction after `finish` in the same `_callback`
invocation is dropped, whatever it is.  (The counterexample
theorem shows instructions in later chunks are still applied.) -/
theorem finish_breaks_current_chunk (pre post : List Ins) (d : List (String × JVal))
    (s : List Effect) :
    execChunk s (pre ++ ⟨"finish", d⟩ :: post) = execChunk s (pre ++ [⟨"finish", d⟩]) := by
  induction pre generalizing s with
  | nil => rfl
  | cons i pre2 ih =>
    show execChunk s (i :: (pre2 ++ ⟨"finish", d⟩ :: post)) =
      execChunk s (i :: (pre2 ++ [⟨"finish", d⟩]))
    simp only [execChunk]
    cases hexec : execIns i with
    | error e => rfl
    | ok r =>
      obtain ⟨effs, b⟩ := r
      cases b with
      | true => rfl
      | false => exact ih (s ++ effs)

/-- C2 counterexample: `finish` does not terminate the whole stream.  A
`write` command delivered in a later chunk, after a chunk whose only
instruction was `finish`, is still applied to the response sink (the claim
says nothing after `finish` is ever applied). -/
theorem finish_not_stream_terminal :
    (execStream [] [[⟨"finish", []⟩], [⟨"write", [("content", JVal.str "x")]⟩]]).1 =
      [Effect.write (JVal.str "x")] ∧
    (execStream [] [[⟨"finish", []⟩], [⟨"write", [("content", JVal.str "x")]⟩]]).1 ≠ [] :=
  ⟨rfl, by
    intro he
    have hx : ([Effect.write (JVal.str "x")] : List Effect) = [] := he
    simp at hx⟩

/-! ## C3: the class-level shared buffer -/

/-- C3: the framing buffer is *not* per-stream.  `ExecHandler.buffer` is a
class attribute, so two handler instances share one buffer: when handler 1
buffers the unterminated byte `a` and handler 2 then feeds `b\n`, handler
2 emits the fused line `ab` — whereas the same bytes fed to a fresh,
exclusively-owned buffer emit `b`.  A newly started stream therefore does
not begin with an empty buffer. -/
theorem shared_class_buffer_corruption :
    (sharedRun [(1, [97]), (2, [98, 10])]).emitted = [(2, "ab")] ∧
    (feedChunk ⟨[], [], false⟩ [98, 10]).emitted = ["b"] :=
  ⟨rfl, rfl⟩

/-! ## C4: `clear_all_cookie` -/

/-- C4: the `clear_all_cookie` branch does not remove all matching
cookies.  It forwards `data` to tornado's single-cookie
`clear_cookie(name, path="/", domain=None)`; with the documented payload
(domain and path only, no name) the keyword binding fails with
`TypeError`, and the branch is literally identical to the `clear_cookie`
branch. -/
theorem clear_all_cookie_missing_name :
    execIns ⟨"clear_all_cookie",
      [("domain", JVal.str "example.com"), ("path", JVal.str "/")]⟩ =
      .error GErr.typeErr ∧
    (∀ d : List (String × JVal),
      execIns ⟨"clear_all_cookie", d⟩ = execIns ⟨"clear_cookie", d⟩) :=
  ⟨rfl, fun _ => rfl⟩

/-! ## Lemmas about `dlookup` and `derase` -/

theorem derase_of_dlookup_none (k : String) (d : List (String × JVal))
    (h : dlookup k d = none) : derase k d = d := by
  induction d with
  | nil => rfl
  | cons p rest ih =>
    obtain ⟨k2, v⟩ := p
    by_cases hk : k2 = k
    · simp [dlookup, hk] at h
    · simp only [dlookup, if_neg hk] at h
      simp [derase, List.filter_cons, hk] at ih ⊢
      exact ih h

theorem dlookup_derase_ne (k1 k2 : String) (d : List (String × JVal)) (h : k1 ≠ k2) :
    dlookup k1 (derase k2 d) = dlookup k1 d := by
  induction d with
  | nil => rfl
  | cons p rest ih =>
    obtain ⟨k3, v⟩ := p
    show dlookup k1 (List.filter _ ((k3, v) :: rest)) = dlookup k1 ((k3, v) :: rest)
    rw [List.filter_cons]
    by_cases h3 : k3 = k2
    · have hne : ¬ k3 = k1 := by rw [h3]; exact fun e => h e.symm
      rw [if_neg (by simp [h3])]
      show dlookup k1 (derase k2 rest) = _
      rw [ih]
      show dlookup k1 rest = if k3 = k1 then some v else dlookup k1 rest
      rw [if_neg hne]
    · rw [if_pos (by simp [h3])]
      show (if k3 = k1 then some v else dlookup k1 (derase k2 rest)) = _
      rw [ih]
      rfl

theorem dlookup_derase_self (k : String) (d : List (String × JVal)) :
    dlookup k (derase k d) = none := by
  induction d with
  | nil => rfl
  | cons p rest ih =>
    obtain ⟨k2, v⟩ := p
    by_cases hk : k2 = k
    · simp [derase, List.filter_cons, hk] at ih ⊢
      exact ih
    · simp [derase, List.filter_cons, hk, dlookup] at ih ⊢
      exact ih

/-! ## C5: the `set_cookie` policy branch -/

/-- C5: cookie policy branch of `set_cookie`.  `data.pop('secure', False)`
removes the `secure` key; a true value selects the plain `set_cookie`
path, a false or absent value the signed `set_secure_cookie` path, and in
each case exactly the remaining fields are forwarded. -/
theorem set_cookie_policy_branch (d : List (String × JVal)) :
    (dlookup "secure" d = some (JVal.bool true) →
      execIns ⟨"set_cookie", d⟩ =
        .ok ([Effect.setCookiePlain (derase "secure" d)], false)) ∧
    (dlookup "secure" d = some (JVal.bool false) →
      execIns ⟨"set_cookie", d⟩ =
        .ok ([Effect.setCookieSigned (derase "secure" d)], false)) ∧
    (dlookup "secure" d = none →
      execIns ⟨"set_cookie", d⟩ = .ok ([Effect.setCookieSigned d], false)) := by
  refine ⟨fun h => ?_, fun h => ?_, fun h => ?_⟩
  · simp [execIns, truthyOpt, h, truthy]
  · simp [execIns, truthyOpt, h, truthy]
  · simp [execIns, truthyOpt, h, truthy, derase_of_dlookup_none "secure" d h]

/-- C5 witness: a concrete `set_cookie` with `secure: true` takes the
plain path with the `secure` field stripped. -/
theorem set_cookie_policy_branch_witness :
    execIns ⟨"set_cookie", [("name", JVal.str "a"), ("secure", JVal.bool true)]⟩ =
      .ok ([Effect.setCookiePlain [("name", JVal.str "a")]], false) :=
  ((set_cookie_policy_branch
    [("name", JVal.str "a"), ("secure", JVal.bool true)]).1 rfl).trans rfl

/-! ## C10: `write` with a null or absent `content` -/

/-- C10: a `write` whose `data.content` is JSON `null` behaves exactly
like one with no `content` key at all — `data.get('content') is None`
cannot tell them apart — and both append the literal text `null`; a
truthy `data.flush` then flushes. -/
theorem write_null_content (d : List (String × JVal)) :
    (dlookup "content" d = some JVal.null ∨ dlookup "content" d = none) →
      execIns ⟨"write", d⟩ = execIns ⟨"write", derase "content" d⟩ ∧
      execIns ⟨"write", d⟩ =
        .ok (Effect.write (JVal.str "null") ::
          (if truthyOpt (dlookup "flush" d) then [Effect.flush] else []), false) := by
  intro h
  have hflush : dlookup "flush" (derase "content" d) = dlookup "flush" d :=
    dlookup_derase_ne "flush" "content" d (by decide)
  have hcd : dlookup "content" (derase "content" d) = none :=
    dlookup_derase_self "content" d
  rcases h with h | h <;>
    simp [execIns, h, hcd, hflush]

/-- C10 witness: `write` with `content: null` and `flush: true` appends
the text `null` and flushes. -/
theorem write_null_content_witness :
    execIns ⟨"write", [("content", JVal.null), ("flush", JVal.bool true)]⟩ =
      .ok ([Effect.write (JVal.str "null"), Effect.flush], false) :=
  ((write_null_content [("content", JVal.null), ("flush", JVal.bool true)])
    (Or.inl rfl)).2.trans rfl

/-! ## C9: redirect query merge -/

/-- C9: redirect query merge.  When `data.query` is a mapping, its
URL-encoded entries are appended to `data.url` — after `&` if the URL
already contains `?`, otherwise after `?`; when `data.query` is absent or
not a mapping the redirect targets `data.url` unchanged. -/
theorem redirect_query_merge (u : String) (d : List (String × JVal)) :
    dlookup "url" d = some (JVal.str u) →
      (∀ q, dlookup "query" d = some (JVal.obj q) →
        execIns ⟨"redirect", d⟩ =
          .ok ([Effect.redirect
            (if u.data.contains '?' then u ++ "&" ++ urlencodePy q
             else u ++ "?" ++ urlencodePy q)], false)) ∧
      ((∀ fs, dlookup "query" d ≠ some (JVal.obj fs)) →
        execIns ⟨"redirect", d⟩ = .ok ([Effect.redirect u], false)) := by
  intro hu
  constructor
  · intro q hq
    by_cases hc : '?' ∈ u.data <;>
      simp [execIns, hu, hq, hc]
  · intro hq
    cases hv : dlookup "query" d with
    | none => simp [execIns, hu, hv]
    | some v =>
      cases v with
      | obj fs => exact absurd hv (hq fs)
      | null => simp [execIns, hu, hv]
      | bool b => simp [execIns, hu, hv]
      | num n => simp [execIns, hu, hv]
      | str s => simp [execIns, hu, hv]
      | arr xs => simp [execIns, hu, hv]

/-- C9 witness: the two examples of the claim — `/x` with `{q: "1"}`
redirects to `/x?q=1`, and `/x?y=2` with the same query to
`/x?y=2&q=1`. -/
theorem redirect_query_merge_witness :
    execIns ⟨"redirect", [("url", JVal.str "/x"),
      ("query", JVal.obj [("q", JVal.str "1")])]⟩ =
      .ok ([Effect.redirect "/x?q=1"], false) ∧
    execIns ⟨"redirect", [("url", JVal.str "/x?y=2"),
      ("query", JVal.obj [("q", JVal.str "1")])]⟩ =
      .ok ([Effect.redirect "/x?y=2&q=1"], false) :=
  ⟨(((redirect_query_merge "/x"
      [("url", JVal.str "/x"), ("query", JVal.obj [("q", JVal.str "1")])]) rfl).1
      [("q", JVal.str "1")] rfl).trans rfl,
   (((redirect_query_merge "/x?y=2"
      [("url", JVal.str "/x?y=2"), ("query", JVal.obj [("q", JVal.str "1")])]) rfl).1
      [("q", JVal.str "1")] rfl).trans rfl⟩

/-! ## C6: route-resolution failure -/

/-- C6 (amended): when route resolution fails, the handler raises 404 for
`GET` and 405 for every other method — including the safe method `HEAD` —
and no envelope is built and no outbound request is constructed (the
result is an error, never an `OutboundReq`). -/
theorem route_failure_status (method : String) (hs : List (String × String))
    (args : List (String × List (List Nat))) (body : List Nat)
    (loads : String → Option JVal) (eid etime : String) :
    handleModel none method hs args body loads eid etime =
      .error (.http (if method = "GET" then 404 else 405)) := by
  by_cases h : method = "GET" <;>
    simp [handleModel, resolve_by_uri, h]

/-- C6 counterexample: a failed resolution for the safe method `HEAD`
responds 405, not the 404 the claim asserts for safe methods. -/
theorem route_failure_head_405 :
    handleModel none "HEAD" [] [] [] (fun _ => none) "i" "t" = .error (.http 405) ∧
    (405 : Nat) ≠ 404 :=
  ⟨rfl, by decide⟩

/-! ## C7: query-parameter flattening -/

theorem buildQueryParams_ok (args : List (String × List (List Nat))) :
    ∀ qs, buildQueryParams args = .ok qs →
      List.Forall₂ (fun p q => q.1 = p.1 ∧ utf8Decode (p.2.headD []) = some q.2) args qs := by
  induction args with
  | nil =>
    intro qs h
    cases h
    exact List.Forall₂.nil
  | cons p rest ih =>
    intro qs h
    obtain ⟨k, vs⟩ := p
    cases vs with
    | nil => cases h
    | cons v vtail =>
      simp only [buildQueryParams] at h
      cases hdec : utf8Decode v with
      | none => rw [hdec] at h; cases h
      | some s =>
        rw [hdec] at h
        cases hrec : buildQueryParams rest with
        | error e => rw [hrec] at h; cases h
        | ok qs2 =>
          rw [hrec] at h
          cases h
          exact List.Forall₂.cons ⟨rfl, hdec⟩ (ih qs2 hrec)

theorem buildQueryParams_err (args : List (String × List (List Nat)))
    (hne : ∀ p ∈ args, p.2 ≠ [])
    (hbad : ∃ p ∈ args, utf8Decode (p.2.headD []) = none) :
    buildQueryParams args = .error .decodeErr := by
  induction args with
  | nil => simp at hbad
  | cons p rest ih =>
    obtain ⟨k, vs⟩ := p
    have hvs : vs ≠ [] := hne (k, vs) (List.mem_cons_self _ _)
    cases vs with
    | nil => exact absurd rfl hvs
    | cons v vtail =>
      simp only [buildQueryParams]
      cases hdec : utf8Decode v with
      | none => rfl
      | some s =>
        have hbad2 : ∃ p ∈ rest, utf8Decode (p.2.headD []) = none := by
          rcases hbad with ⟨p, hp, hpd⟩
          rcases List.mem_cons.mp hp with he | hm
          · rw [he] at hpd
            simp only [List.headD_cons] at hpd
            rw [hpd] at hdec
            cases hdec
          · exact ⟨p, hm, hpd⟩
        have hrec := ih (fun p hp => hne p (List.mem_cons_of_mem _ hp)) hbad2
        rw [hrec]

/-- C7: query-parameter flattening.  On every successfully built envelope
the `query_params` pair each argument name with the UTF-8 decoding of its
*first* raw value only, in order; and if any kept (first) value is not
valid UTF-8, envelope construction fails with the decode error. -/
theorem query_params_first_value (ep method : String) (hs : List (String × String))
    (args : List (String × List (List Nat))) (body : List Nat)
    (loads : String → Option JVal) (eid etime : String)
    (hne : ∀ p ∈ args, p.2 ≠ []) :
    (∀ r ev, resolve_by_uri (some ep) method hs args body loads eid etime = .ok (r, ev) →
      List.Forall₂ (fun p q => q.1 = p.1 ∧ utf8Decode (p.2.headD []) = some q.2)
        args ev.query_params) ∧
    ((∃ p ∈ args, utf8Decode (p.2.headD []) = none) →
      resolve_by_uri (some ep) method hs args body loads eid etime =
        .error .decodeErr) := by
  constructor
  · intro r ev h
    cases hq : buildQueryParams args with
    | error e => simp [resolve_by_uri, hq] at h
    | ok qp =>
      have hev : ev.query_params = qp := by
        cases hct : hasJsonCT hs with
        | false =>
          simp [resolve_by_uri, hq, hct] at h
          rw [← h.2]
          rfl
        | true =>
          cases hub : utf8Decode body with
          | none => simp [resolve_by_uri, hq, hct, hub] at h
          | some s =>
            cases hl : loads s with
            | none => simp [resolve_by_uri, hq, hct, hub, hl] at h
            | some v =>
              simp [resolve_by_uri, hq, hct, hub, hl] at h
              rw [← h.2]
              rfl
      rw [hev]
      exact buildQueryParams_ok args qp hq
  · intro hbad
    have hq := buildQueryParams_err args hne hbad
    simp [resolve_by_uri, hq]

/-- C7 witness: an argument whose first (kept) value is the invalid UTF-8
byte `0xFF` makes envelope construction fail with the decode error. -/
theorem query_params_first_value_witness :
    resolve_by_uri (some "e") "GET" [] [("a", [[255]])] [] (fun _ => none) "i" "t" =
      .error GErr.decodeErr :=
  (query_params_first_value "e" "GET" [] [("a", [[255]])] [] (fun _ => none) "i" "t"
    (by simp)).2 ⟨("a", [[255]]), by simp, rfl⟩

/-! ## C8: JSON body capture and short-circuit -/

/-- C8: `data.body` is present in a built envelope exactly when the
inbound content-type contains the substring `application/json`, and then
holds the parsed JSON body; if the body fails to parse, construction
fails with the malformed-body error and no outbound request is ever
built. -/
theorem json_body_capture (ep method : String) (hs : List (String × String))
    (args : List (String × List (List Nat))) (body : List Nat)
    (loads : String → Option JVal) (eid etime : String) :
    (∀ r ev, resolve_by_uri (some ep) method hs args body loads eid etime = .ok (r, ev) →
      ev.body.isSome = hasJsonCT hs ∧
      (∀ v, ev.body = some v → ∃ s, utf8Decode body = some s ∧ loads s = some v)) ∧
    (∀ qp s, buildQueryParams args = .ok qp → hasJsonCT hs = true →
      utf8Decode body = some s → loads s = none →
      handleModel (some ep) method hs args body loads eid etime =
        .error .malformedBody) := by
  constructor
  · intro r ev h
    cases hq : buildQueryParams args with
    | error e => simp [resolve_by_uri, hq] at h
    | ok qp =>
      cases hct : hasJsonCT hs with
      | false =>
        simp [resolve_by_uri, hq, hct] at h
        rw [← h.2]
        refine ⟨rfl, ?_⟩
        intro v hv
        cases hv
      | true =>
        cases hub : utf8Decode body with
        | none => simp [resolve_by_uri, hq, hct, hub] at h
        | some s =>
          cases hl : loads s with
          | none => simp [resolve_by_uri, hq, hct, hub, hl] at h
          | some v0 =>
            simp [resolve_by_uri, hq, hct, hub, hl] at h
            rw [← h.2]
            refine ⟨rfl, ?_⟩
            intro v hv
            have hv0 : v0 = v := by
              have : (mkEvent eid etime hs qp (some v0)).body = some v := hv
              simp [mkEvent] at this
              exact this
            exact ⟨s, rfl, hv0 ▸ hl⟩
  · intro qp s hq hct hub hl
    simp [handleModel, resolve_by_uri, hq, hct, hub, hl]

/-- C8 witness: a request with `Content-Type: application/json` whose body
fails to parse makes the handler fail with the malformed-body error before
any outbound request is built. -/
theorem json_body_capture_witness :
    handleModel (some "e") "POST" [("Content-Type", "application/json")] [] [97]
      (fun _ => none) "i" "t" = .error GErr.malformedBody :=
  (json_body_capture "e" "POST" [("Content-Type", "application/json")] [] [97]
    (fun _ => none) "i" "t").2 [] "a" rfl rfl rfl rfl
